import Mathlib

/-!
Shallow embedding of the Gemini Reasoning Bridge pipeline
(scripts/pipeline.py) and proofs about its coverage gate,
revision controller and spec-hash gate.

Python/JSON values are modelled by an inductive `JVal`; Python
exceptions by `PyErr`; fallible operations return `Except PyErr`.
Numbers are modelled by rationals. External agent responses are
supplied by an environment `Env`: each raw response carries its
text together with the result of JSON-parsing it (`none` models a
json.JSONDecodeError from the standard library parser).
-/

namespace Pipeline

/-- A JSON/Python value as produced by json.loads. -/
inductive JVal where
  | null
  | bool (b : Bool)
  | num (q : ℚ)
  | str (s : String)
  | arr (items : List JVal)
  | obj (fields : List (String × JVal))

/-- The Python exceptions the embedded code can raise. -/
inductive PyErr where
  | keyError
  | typeError
  | attributeError
  | valueError
  | unboundLocalError
  deriving DecidableEq, Repr

/-- Lookup in an association list of object fields (Python dict lookup). -/
def olookup : List (String × JVal) → String → Option JVal
  | [], _ => none
  | (k, v) :: rest, key => if k = key then some v else olookup rest key

/-- Functional update of an object field (Python dict item assignment). -/
def oset : List (String × JVal) → String → JVal → List (String × JVal)
  | [], key, v => [(key, v)]
  | (k, w) :: rest, key, v =>
    if k = key then (key, v) :: rest else (k, w) :: oset rest key v

/-- Python subscript read `d[key]`: KeyError on a missing key,
TypeError when the value is not a dict. -/
def getItem : JVal → String → Except PyErr JVal
  | .obj fs, key =>
    match olookup fs key with
    | some v => .ok v
    | none => .error .keyError
  | _, _ => .error .typeError

/-- Python subscript write `d[key] = v`: TypeError when the value is
not a dict. -/
def setItem : JVal → String → JVal → Except PyErr JVal
  | .obj fs, key, v => .ok (.obj (oset fs key v))
  | _, _, _ => .error .typeError

/-- Python `d.get(key, default)`: AttributeError when the receiver is
not a dict. -/
def dictGetD : JVal → String → JVal → Except PyErr JVal
  | .obj fs, key, dflt => .ok ((olookup fs key).getD dflt)
  | _, _, _ => .error .attributeError

/-- Python iteration `for c in v`: lists yield their items, strings
their one-character substrings, dicts their keys; other values raise
TypeError. -/
def pyIter : JVal → Except PyErr (List JVal)
  | .arr xs => .ok xs
  | .str s => .ok (s.toList.map fun ch => .str (String.mk [ch]))
  | .obj fs => .ok (fs.map fun p => .str p.1)
  | .null => .error .typeError
  | .bool _ => .error .typeError
  | .num _ => .error .typeError

/-- Python equality of a value against a string literal: only a string
with the same characters compares equal. -/
def isStrEq : JVal → String → Bool
  | .str t, s => t = s
  | _, _ => false

/-- Python truthiness of a value. -/
def pyTruthy : JVal → Bool
  | .null => false
  | .bool b => b
  | .num q => q != 0
  | .str s => s != ""
  | .arr xs => !xs.isEmpty
  | .obj fs => !fs.isEmpty

/-- A raw agent response: its text and the result of JSON-parsing it
(`none` models a json.JSONDecodeError). -/
structure Raw where
  text : String
  parsed : Option JVal

/-- `_parse_evidence`: json.loads with a fallback wrapping the raw
text as a single-item list on a decode error. -/
def parse_evidence (r : Raw) : JVal :=
  match r.parsed with
  | some v => v
  | none => .arr [.obj [("content", .str r.text)]]

/-- `_parse_draft`: json.loads with a fallback carrying the raw text
as narrative, an empty sentence map and an empty claim ledger. -/
def parse_draft (r : Raw) : JVal :=
  match r.parsed with
  | some v => v
  | none =>
    .obj [("narrative", .str r.text),
          ("sentence_map", .arr []),
          ("claim_ledger", .obj [("claims", .arr [])])]

/-- `_parse_audit_report`: json.loads with a fallback report whose
status is FAIL and which notes the invalid format. -/
def parse_audit_report (r : Raw) : JVal :=
  match r.parsed with
  | some v => v
  | none =>
    .obj [("audit_status", .str "FAIL"),
          ("error", .str "Invalid audit report format")]

/-- The CCC coverage metric dict built by `_calculate_ccc_metric`. -/
structure CccMetric where
  V : ℕ
  U : ℕ
  ratio : ℚ
  threshold : ℚ
  deriving DecidableEq, Repr

/-- The first list comprehension of `_calculate_ccc_metric`: the
number of claims whose claim_type equals "factual".  Each element is
read with `.get`, which raises AttributeError on a non-dict. -/
def countFactual : List JVal → Except PyErr ℕ
  | [] => .ok 0
  | c :: rest =>
    match dictGetD c "claim_type" .null with
    | .error e => .error e
    | .ok t =>
      match countFactual rest with
      | .error e => .error e
      | .ok n => .ok ((if isStrEq t "factual" then 1 else 0) + n)

/-- The second list comprehension of `_calculate_ccc_metric`: the
number of claims whose claim_type equals "factual" and whose
has_valid_pinpoint value is truthy (default False). -/
def countValid : List JVal → Except PyErr ℕ
  | [] => .ok 0
  | c :: rest =>
    match dictGetD c "claim_type" .null with
    | .error e => .error e
    | .ok t =>
      if isStrEq t "factual" then
        match dictGetD c "has_valid_pinpoint" (.bool false) with
        | .error e => .error e
        | .ok p =>
          match countValid rest with
          | .error e => .error e
          | .ok n => .ok ((if pyTruthy p then 1 else 0) + n)
      else
        match countValid rest with
        | .error e => .error e
        | .ok n => .ok n

/-- `_calculate_ccc_metric`: U = factual claims, V = factual claims
with a valid pinpoint, ratio = V/U (0.0 when U = 0), threshold taken
from the node configuration (already resolved to `thr`). -/
def calculate_ccc_metric (claim_ledger : JVal) (thr : ℚ) :
    Except PyErr CccMetric :=
  match dictGetD claim_ledger "claims" (.arr []) with
  | .error e => .error e
  | .ok claimsVal =>
    match pyIter claimsVal with
    | .error e => .error e
    | .ok claims =>
      match countFactual claims with
      | .error e => .error e
      | .ok u =>
        match countValid claims with
        | .error e => .error e
        | .ok v => .ok ⟨v, u, if 0 < u then mkRat v u else 0, thr⟩

/-- The CCC hard-gate comparison from process_haystack:
`ccc_metric['ratio'] >= ccc_metric['threshold']`, i.e. the ratio is
not below the threshold. -/
def cccGatePasses (m : CccMetric) : Bool :=
  !(Rat.blt m.ratio m.threshold)

/-- The metric dict as attached to the audit report. -/
def cccToJVal (m : CccMetric) : JVal :=
  .obj [("V", .num m.V),
        ("U", .num m.U),
        ("ratio", .num m.ratio),
        ("threshold", .num m.threshold)]

/-- The environment of external agent responses for one run: the
Evidence Manager and Context Gardener responses, the Structural
Drafter response for each drafter call (0 = initial draft, k+1 = the
k-th revision), and the Socratic Critic response for each audit
cycle. -/
structure Env where
  evidenceResp : Raw
  gardenerResp : Raw
  draftResps : ℕ → Raw
  criticResps : ℕ → Raw

/-- How many times each external stage was invoked during a run. -/
structure Counts where
  normalize : ℕ
  rank : ℕ
  draft : ℕ
  audit : ℕ
  revise : ℕ
  deriving DecidableEq, Repr

/-- The bundle returned by process_haystack. -/
structure Bundle where
  evidence : JVal
  draft : JVal
  audit_report : JVal
  status : JVal

/-- The outcome of one iteration of the revision loop of
process_haystack (lines 144-177 of pipeline.py). -/
inductive CycleOut where
  /-- An exception raised before the critic is invoked (while
  serializing the arguments of the audit call). -/
  | errPre (e : PyErr)
  /-- An exception raised after the critic was invoked but before any
  revision drafter call. -/
  | errPost (e : PyErr)
  /-- An exception raised after a revision drafter call. -/
  | errRevised (e : PyErr)
  /-- The gate passed: status set to PASS and the loop breaks without
  attaching the metric to the report. -/
  | passed (rpt : JVal)
  /-- The gate failed on the last allowed cycle: status FAIL, metric
  attached, loop ends. -/
  | exhausted (rpt : JVal)
  /-- The gate failed with budget remaining: a revision context is
  built, the drafter is re-invoked, and the loop continues with the
  newly parsed draft. -/
  | revised (newDraft : JVal) (rpt : JVal)

/-- One iteration of the revision loop (lines 145-177 of
pipeline.py): serialize the audit-call arguments, invoke the critic,
parse its report, recompute the CCC metric from the current claim
ledger, and apply the gate.  `last` tells whether this is the final
allowed cycle (`revision_cycle == max_revisions - 1`). -/
def runCycle (env : Env) (thr : ℚ) (cycle : ℕ) (last : Bool)
    (draft_data : JVal) : CycleOut :=
  match getItem draft_data "claim_ledger" with
  | .error e => .errPre e
  | .ok ledger =>
    match getItem draft_data "sentence_map" with
    | .error e => .errPre e
    | .ok _sm =>
      let report := parse_audit_report (env.criticResps cycle)
      match calculate_ccc_metric ledger thr with
      | .error e => .errPost e
      | .ok m =>
        if cccGatePasses m then
          match setItem report "audit_status" (.str "PASS") with
          | .error e => .errPost e
          | .ok rpass => .passed rpass
        else
          match setItem report "audit_status" (.str "FAIL") with
          | .error e => .errPost e
          | .ok rfail =>
            if last then
              match setItem rfail "ccc_metric" (cccToJVal m) with
              | .error e => .errPost e
              | .ok rdone => .exhausted rdone
            else
              match dictGetD rfail "revision_guidance" (.arr []) with
              | .error e => .errPost e
              | .ok _guidance =>
                match dictGetD rfail "logic_inversion_results" (.obj []) with
                | .error e => .errPost e
                | .ok lir =>
                  match dictGetD lir "unsupported_claims" (.arr []) with
                  | .error e => .errPost e
                  | .ok _unsupported =>
                    let newDraft := parse_draft (env.draftResps (cycle + 1))
                    match setItem rfail "ccc_metric" (cccToJVal m) with
                    | .error e => .errRevised e
                    | .ok rdead => .revised newDraft rdead

/-- The revision loop of process_haystack.  `total` is
max_revision_cycles; `rem` is the number of iterations still to run,
so the current revision_cycle index is `total - rem`.  Returns the
final draft_data and audit_report (or the first exception raised)
together with the updated stage-invocation counts. -/
def runLoop (env : Env) (thr : ℚ) (total : ℕ) :
    (rem : ℕ) → JVal → Counts → Except PyErr (JVal × JVal) × Counts
  | 0, _, c => (.error .unboundLocalError, c)
  | rem + 1, draft_data, c =>
    match runCycle env thr (total - (rem + 1)) (rem == 0) draft_data with
    | .errPre e => (.error e, c)
    | .errPost e => (.error e, { c with audit := c.audit + 1 })
    | .errRevised e =>
      (.error e, { c with audit := c.audit + 1, draft := c.draft + 1,
                          revise := c.revise + 1 })
    | .passed rpt => (.ok (draft_data, rpt), { c with audit := c.audit + 1 })
    | .exhausted rpt => (.ok (draft_data, rpt), { c with audit := c.audit + 1 })
    | .revised newDraft _rpt =>
      runLoop env thr total rem newDraft
        { c with audit := c.audit + 1, draft := c.draft + 1,
                 revise := c.revise + 1 }
  termination_by structural rem => rem

/-- `process_haystack`: Normalize, Rank and the initial Draft run
unconditionally; then the audit/revision loop runs for at most
max_revision_cycles iterations.  When max_revision_cycles is not
positive the loop body never runs and building the result dict reads
the unbound local audit_report (UnboundLocalError).  The returned
status is the audit_status of the final report. -/
def process_haystack (env : Env) (maxRevisions : ℤ) (thr : ℚ) :
    Except PyErr Bundle × Counts :=
  let c0 : Counts := ⟨1, 1, 1, 0, 0⟩
  let ranked := parse_evidence env.gardenerResp
  let draft0 := parse_draft (env.draftResps 0)
  let total := maxRevisions.toNat
  if total = 0 then
    (.error .unboundLocalError, c0)
  else
    match runLoop env thr total total draft0 c0 with
    | (.error e, c) => (.error e, c)
    | (.ok (draft_data, report), c) =>
      match getItem report "audit_status" with
      | .error e => (.error e, c)
      | .ok status =>
        (.ok ⟨ranked, draft_data, report, status⟩, c)

/-- `_verify_spec_hash`: reads active_spec (default empty dict) and
its spec_hash (default empty string) from the architecture ledger and
compares with the computed hash as an exact string match. -/
def verify_spec_hash (spec_hash : String) (architecture_ledger : JVal) :
    Except PyErr Bool :=
  match dictGetD architecture_ledger "active_spec" (.obj []) with
  | .error e => .error e
  | .ok active_spec =>
    match dictGetD active_spec "spec_hash" (.str "") with
    | .error e => .error e
    | .ok expected => .ok (isStrEq expected spec_hash)

/-- `generate_code`: hashes the spec text with the content-hash
function (`_calculate_text_hash`, SHA-256 from the standard library,
modelled by the parameter `hashFn`), verifies it against the ledger,
raises ValueError when verification fails, and otherwise invokes the
builder agent.  Returns the result together with the list of
(spec_md, architecture_ledger) inputs of the builder invocations
performed. -/
def generate_code (hashFn : String → String) (builderResp : String)
    (spec_md : String) (architecture_ledger : JVal) :
    Except PyErr String × List (String × JVal) :=
  let spec_hash := hashFn spec_md
  match verify_spec_hash spec_hash architecture_ledger with
  | .error e => (.error e, [])
  | .ok verified =>
    if verified then
      (.ok builderResp, [(spec_md, architecture_ledger)])
    else
      (.error .valueError, [])

/-! ### Concrete sample inputs used to exercise the definitions -/

/-- A factual claim carrying a valid pinpoint. -/
def sampleValidClaim : JVal :=
  .obj [("claim_type", .str "factual"), ("has_valid_pinpoint", .bool true)]

/-- A factual claim without a valid pinpoint. -/
def sampleInvalidClaim : JVal :=
  .obj [("claim_type", .str "factual"), ("has_valid_pinpoint", .bool false)]

/-- A claim ledger with 20 factual claims of which 19 have valid
pinpoints. -/
def sampleLedger1920 : JVal :=
  .obj [("claims", .arr (List.replicate 19 sampleValidClaim ++ [sampleInvalidClaim]))]

/-- A well-formed draft artifact holding the given claims. -/
def mkDraftData (claims : List JVal) : JVal :=
  .obj [("narrative", .str "n"),
        ("sentence_map", .arr []),
        ("claim_ledger", .obj [("claims", .arr claims)])]

/-- An environment in which every agent response fails JSON parsing,
so every stage wrapper takes its fallback path. -/
def envAllMalformed : Env :=
  { evidenceResp := ⟨"ev", none⟩
    gardenerResp := ⟨"gd", none⟩
    draftResps := fun _ => ⟨"dr", none⟩
    criticResps := fun _ => ⟨"cr", none⟩ }

/-- An environment whose drafter always produces the 19-of-20 claim
ledger. -/
def env1920 : Env :=
  { envAllMalformed with
    draftResps := fun _ =>
      ⟨"d", some (mkDraftData (List.replicate 19 sampleValidClaim ++ [sampleInvalidClaim]))⟩ }

/-- An environment whose drafter always produces one fully pinpointed
factual claim. -/
def envPerfect : Env :=
  { envAllMalformed with
    draftResps := fun _ => ⟨"d", some (mkDraftData [sampleValidClaim])⟩ }

/-- An environment whose drafter returns syntactically valid JSON of
non-conforming structure: an empty object. -/
def envEmptyObjDraft : Env :=
  { envAllMalformed with draftResps := fun _ => ⟨"x", some (.obj [])⟩ }

/-- An environment whose critic returns syntactically valid JSON of
non-conforming structure: an empty array. -/
def envBadFinalReport : Env :=
  { envAllMalformed with criticResps := fun _ => ⟨"[]", some (.arr [])⟩ }

/-- An architecture ledger recording the hash value H-spec. -/
def sampleArchLedger : JVal :=
  .obj [("active_spec", .obj [("spec_hash", .str "H-spec")])]

/-- A toy stand-in for the SHA-256 content hash in witnesses. -/
def sampleHashFn (s : String) : String := "H-" ++ s

/-- The critic response of the first self-report environment: it
claims its own audit passed with perfect coverage. -/
def selfReportPassRaw : Raw :=
  ⟨"a", some (.obj [("audit_status", .str "PASS"),
                    ("ccc_metric", .num 1),
                    ("revision_guidance", .arr []),
                    ("logic_inversion_results", .obj [])])⟩

/-- The critic response of the second self-report environment: it
claims its own audit failed with zero coverage. -/
def selfReportFailRaw : Raw :=
  ⟨"b", some (.obj [("audit_status", .str "FAIL"),
                    ("ccc_metric", .num 0),
                    ("revision_guidance", .arr []),
                    ("logic_inversion_results", .obj [])])⟩

/-- Environment whose critic self-reports PASS with full coverage. -/
def envSelfReportPass : Env :=
  { envAllMalformed with criticResps := fun _ => selfReportPassRaw }

/-- Environment identical to `envSelfReportPass` except that the
critic self-reports FAIL with zero coverage. -/
def envSelfReportFail : Env :=
  { envAllMalformed with criticResps := fun _ => selfReportFailRaw }

/-- The bundle returned by a one-cycle run in which every agent
response is malformed: all fallbacks fire and the gate fails. -/
def sampleFailBundle : Bundle :=
  ⟨.arr [.obj [("content", .str "gd")]],
   .obj [("narrative", .str "dr"),
         ("sentence_map", .arr []),
         ("claim_ledger", .obj [("claims", .arr [])])],
   .obj [("audit_status", .str "FAIL"),
         ("error", .str "Invalid audit report format"),
         ("ccc_metric", cccToJVal ⟨0, 0, 0, mkRat 95 100⟩)],
   .str "FAIL"⟩


/-- One audit cycle on which the Coverage Gate fails cleanly: the
draft artifact has the fields the controller reads, the metric
computes, the gate fails, the critic report parses to a dict, and its
logic_inversion_results entry (defaulted to an empty dict) is a dict,
so a revision context can be built. -/
def FailingCycle (env : Env) (thr : ℚ) (k : ℕ) : Prop :=
  ∃ L m fs,
    getItem (parse_draft (env.draftResps k)) "claim_ledger" = .ok L ∧
    (∃ sm, getItem (parse_draft (env.draftResps k)) "sentence_map" = .ok sm) ∧
    calculate_ccc_metric L thr = .ok m ∧
    cccGatePasses m = false ∧
    parse_audit_report (env.criticResps k) = .obj fs ∧
    (∃ lfs, (olookup fs "logic_inversion_results").getD (.obj []) = .obj lfs)


/-- Two critic responses that agree on everything the controller ever
reads from a parsed audit report (the revision_guidance and
logic_inversion_results entries) while both parsing to dicts; the
audit_status and any self-reported coverage figures may differ
arbitrarily. -/
def reportsAgree (r1 r2 : Raw) : Prop :=
  ∃ fs1 fs2, parse_audit_report r1 = .obj fs1 ∧
    parse_audit_report r2 = .obj fs2 ∧
    olookup fs1 "revision_guidance" = olookup fs2 "revision_guidance" ∧
    olookup fs1 "logic_inversion_results" = olookup fs2 "logic_inversion_results"

/-- Relation between the loop results of two runs: equal counts,
identical exception, identical final draft, and audit reports with
the same audit_status entry. -/
def loopResRel :
    Except PyErr (JVal × JVal) × Counts →
    Except PyErr (JVal × JVal) × Counts → Prop
  | (.error a, c1), (.error b, c2) => a = b ∧ c1 = c2
  | (.ok (da, ra), c1), (.ok (db, rb), c2) =>
    da = db ∧ c1 = c2 ∧
    getItem ra "audit_status" = getItem rb "audit_status"
  | _, _ => False

/-! ### Helper lemmas -/

theorem olookup_oset_self (fs : List (String × JVal)) (k : String) (v : JVal) :
    olookup (oset fs k v) k = some v := by
  induction fs with
  | nil => simp [oset, olookup]
  | cons p rest ih =>
    obtain ⟨a, b⟩ := p
    by_cases h : a = k <;> simp [oset, olookup, h, ih]

theorem olookup_oset_ne (fs : List (String × JVal)) (k k' : String) (v : JVal)
    (h : k' ≠ k) : olookup (oset fs k v) k' = olookup fs k' := by
  induction fs with
  | nil =>
    simp only [oset, olookup]
    rw [if_neg fun hk => h hk.symm]
  | cons p rest ih =>
    obtain ⟨a, b⟩ := p
    by_cases ha : a = k
    · subst ha
      simp only [oset, if_pos rfl, olookup]
      rw [if_neg fun hk => h hk.symm, if_neg fun hk => h hk.symm]
    · simp only [oset, if_neg ha, olookup]
      by_cases ha' : a = k'
      · rw [if_pos ha', if_pos ha']
      · rw [if_neg ha', if_neg ha', ih]

/-- The boolean gate comparison agrees with the rational order. -/
theorem cccGatePasses_iff (m : CccMetric) :
    cccGatePasses m = true ↔ m.threshold ≤ m.ratio := by
  unfold cccGatePasses
  rw [Bool.not_eq_true']
  constructor
  · intro h
    exact not_lt.mp fun hlt => by
      have : Rat.blt m.ratio m.threshold = true := hlt
      simp [this] at h
  · intro h
    by_contra hne
    have : Rat.blt m.ratio m.threshold = true := by
      cases hb : Rat.blt m.ratio m.threshold
      · simp [hb] at hne
      · rfl
    exact absurd (show m.ratio < m.threshold from this) (not_lt.mpr h)

/-- Each claim contributes to the valid count only if it contributes
to the factual count. -/
theorem countValid_le_countFactual :
    ∀ (l : List JVal) (u v : ℕ),
    countFactual l = .ok u → countValid l = .ok v → v ≤ u := by
  intro l
  induction l with
  | nil =>
    intro u v hu hv
    simp [countFactual] at hu
    simp [countValid] at hv
    omega
  | cons c rest ih =>
    intro u v hu hv
    simp only [countFactual] at hu
    simp only [countValid] at hv
    cases ht : dictGetD c "claim_type" .null with
    | error e => simp [ht] at hu
    | ok t =>
      simp only [ht] at hu hv
      cases hr : countFactual rest with
      | error e => simp [hr] at hu
      | ok n =>
        simp only [hr] at hu
        by_cases hf : isStrEq t "factual"
        · simp only [hf, if_true] at hv
          cases hp : dictGetD c "has_valid_pinpoint" (.bool false) with
          | error e => simp [hp] at hv
          | ok p =>
            simp only [hp] at hv
            cases hvr : countValid rest with
            | error e => simp [hvr] at hv
            | ok nv =>
              simp only [hvr, Except.ok.injEq] at hu hv
              have := ih n nv hr hvr
              subst hu hv
              split <;> omega
        · simp only [hf, if_false, Bool.false_eq_true] at hv
          cases hvr : countValid rest with
          | error e => simp [hvr] at hv
          | ok nv =>
            simp only [hvr, Except.ok.injEq] at hu hv
            have := ih n nv hr hvr
            subst hu hv
            omega

/-- Anatomy of a successful `_calculate_ccc_metric` call. -/
theorem calculate_ccc_metric_spec (claim_ledger : JVal) (thr : ℚ)
    (m : CccMetric) (h : calculate_ccc_metric claim_ledger thr = .ok m) :
    m.threshold = thr ∧ m.V ≤ m.U ∧
    m.ratio = (if m.U = 0 then 0 else mkRat m.V m.U) ∧
    ∃ claimsVal claims,
      dictGetD claim_ledger "claims" (.arr []) = .ok claimsVal ∧
      pyIter claimsVal = .ok claims ∧
      countFactual claims = .ok m.U ∧ countValid claims = .ok m.V := by
  simp only [calculate_ccc_metric] at h
  cases h1 : dictGetD claim_ledger "claims" (.arr []) with
  | error e => simp [h1] at h
  | ok claimsVal =>
    simp only [h1] at h
    cases h2 : pyIter claimsVal with
    | error e => simp [h2] at h
    | ok claims =>
      simp only [h2] at h
      cases h3 : countFactual claims with
      | error e => simp [h3] at h
      | ok u =>
        simp only [h3] at h
        cases h4 : countValid claims with
        | error e => simp [h4] at h
        | ok v =>
          simp only [h4, Except.ok.injEq] at h
          subst h
          refine ⟨rfl, countValid_le_countFactual claims u v h3 h4, ?_,
            claimsVal, claims, rfl, h2, h3, h4⟩
          by_cases hu : u = 0

          · simp [hu]
          · simp [hu, Nat.pos_of_ne_zero hu]

/-- mkRat of a numerator bounded by a positive denominator is at most
one. -/
theorem mkRat_le_one_of_le (v u : ℕ) (hvu : v ≤ u) (hu : 0 < u) :
    mkRat (v : ℤ) u ≤ 1 := by
  rw [Rat.mkRat_eq_divInt, Rat.divInt_eq_div]
  rw [div_le_one (by exact_mod_cast hu)]
  exact_mod_cast hvu

/-! ### Claim theorems -/

/-- Claim C1: for every Claim Ledger the Coverage Gate computes U as
the number of claims whose claim_type equals factual, V as the number
of those factual claims whose has_valid_pinpoint is true (truthy),
and ratio = V/U, defined as 0.0 when U = 0; consequently 0 ≤ V ≤ U
and 0.0 ≤ ratio ≤ 1.0 hold for the returned metric. -/
theorem claim_C1_coverage_metric_invariants (claim_ledger : JVal) (thr : ℚ)
    (m : CccMetric) (h : calculate_ccc_metric claim_ledger thr = .ok m) :
    (∃ claimsVal claims,
      dictGetD claim_ledger "claims" (.arr []) = .ok claimsVal ∧
      pyIter claimsVal = .ok claims ∧
      countFactual claims = .ok m.U ∧ countValid claims = .ok m.V) ∧
    m.V ≤ m.U ∧
    (m.U = 0 → m.ratio = 0) ∧
    (m.U ≠ 0 → m.ratio = (m.V : ℚ) / (m.U : ℚ)) ∧
    0 ≤ m.ratio ∧ m.ratio ≤ 1 := by
  obtain ⟨hthr, hvu, hr, hex⟩ := calculate_ccc_metric_spec claim_ledger thr m h
  refine ⟨hex, hvu, fun hu => by simp [hr, hu], fun hu => ?_, ?_, ?_⟩
  · rw [hr, if_neg hu, Rat.mkRat_eq_divInt, Rat.divInt_eq_div]
    norm_num
  · rw [hr]
    by_cases hu : m.U = 0
    · simp [hu]
    · rw [if_neg hu]
      exact Rat.mkRat_nonneg (Int.natCast_nonneg m.V) m.U
  · rw [hr]
    by_cases hu : m.U = 0
    · simp [hu]
    · rw [if_neg hu]
      exact mkRat_le_one_of_le m.V m.U hvu (Nat.pos_of_ne_zero hu)

/-- Witness for C1 at the concrete 19-of-20 ledger. -/
theorem claim_C1_coverage_metric_invariants_witness :
    calculate_ccc_metric sampleLedger1920 (mkRat 95 100)
      = .ok ⟨19, 20, mkRat 19 20, mkRat 95 100⟩ ∧
    (19 : ℕ) ≤ 20 ∧ (0 : ℚ) ≤ mkRat 19 20 ∧ mkRat 19 20 ≤ 1 := by
  have h : calculate_ccc_metric sampleLedger1920 (mkRat 95 100)
      = .ok ⟨19, 20, mkRat 19 20, mkRat 95 100⟩ := rfl
  have hc := claim_C1_coverage_metric_invariants sampleLedger1920
    (mkRat 95 100) ⟨19, 20, mkRat 19 20, mkRat 95 100⟩ h
  exact ⟨h, hc.2.1, hc.2.2.2.2.1, hc.2.2.2.2.2⟩

/-- Claim C2: the Coverage Gate passes iff ratio ≥ threshold
(non-strict comparison), and a ledger with zero factual claims yields
ratio 0.0, which fails for every threshold greater than 0. -/
theorem claim_C2_gate_pass_iff (claim_ledger : JVal) (thr : ℚ)
    (m : CccMetric) (h : calculate_ccc_metric claim_ledger thr = .ok m) :
    m.threshold = thr ∧
    (cccGatePasses m = true ↔ thr ≤ m.ratio) ∧
    (m.U = 0 → m.ratio = 0 ∧ (0 < thr → cccGatePasses m = false)) := by
  obtain ⟨hthr, hvu, hr, -⟩ := calculate_ccc_metric_spec claim_ledger thr m h
  refine ⟨hthr, by rw [← hthr]; exact cccGatePasses_iff m, fun hu => ?_⟩
  have h0 : m.ratio = 0 := by simp [hr, hu]
  refine ⟨h0, fun hpos => ?_⟩
  cases hb : cccGatePasses m
  · rfl
  · have hle := (cccGatePasses_iff m).mp hb
    rw [hthr, h0] at hle
    exact absurd hpos (not_lt.mpr hle)

/-- The value of `_verify_spec_hash` on a dict ledger, by cases on
the active_spec entry. -/
theorem verify_spec_hash_obj (H : String) (fs : List (String × JVal)) :
    verify_spec_hash H (.obj fs) =
      match (olookup fs "active_spec").getD (.obj []) with
      | .obj afs => .ok (isStrEq ((olookup afs "spec_hash").getD (.str "")) H)
      | _ => .error .attributeError := by
  cases hx : (olookup fs "active_spec").getD (.obj []) <;>
    simp [verify_spec_hash, dictGetD, hx]

/-- Claim C4: generate_code invokes the Build stage, with exactly the
spec text and the architecture ledger as its inputs, iff the content
hash of the spec text is an exact string match for
architecture_ledger.active_spec.spec_hash; on a mismatch or a missing
active_spec/spec_hash entry it raises a blocking error (ValueError)
and performs no builder invocation.  `hashFn` models the SHA-256
content hash `_calculate_text_hash`; its digests are nonempty
strings. -/
theorem claim_C4_spec_hash_gate (hashFn : String → String)
    (builderResp spec_md : String) (fs : List (String × JVal))
    (hne : hashFn spec_md ≠ "") :
    ((generate_code hashFn builderResp spec_md (.obj fs)).2 ≠ [] ↔
      (∃ afs, olookup fs "active_spec" = some (.obj afs) ∧
        olookup afs "spec_hash" = some (.str (hashFn spec_md)))) ∧
    ((generate_code hashFn builderResp spec_md (.obj fs)).2 ≠ [] →
      generate_code hashFn builderResp spec_md (.obj fs)
        = (.ok builderResp, [(spec_md, .obj fs)])) ∧
    ((generate_code hashFn builderResp spec_md (.obj fs)).2 = [] →
      (generate_code hashFn builderResp spec_md (.obj fs)).1.isOk = false) ∧
    (olookup fs "active_spec" = none →
      generate_code hashFn builderResp spec_md (.obj fs)
        = (.error .valueError, [])) ∧
    (∀ afs, olookup fs "active_spec" = some (.obj afs) →
      olookup afs "spec_hash" = none →
      generate_code hashFn builderResp spec_md (.obj fs)
        = (.error .valueError, [])) := by
  have hmiss : isStrEq (.str "") (hashFn spec_md) = false := by
    simp only [isStrEq]
    exact decide_eq_false fun hh => hne hh.symm
  cases h1 : olookup fs "active_spec" with
  | none =>
    have hver : verify_spec_hash (hashFn spec_md) (.obj fs) = .ok false := by
      rw [verify_spec_hash_obj, h1]
      simp [olookup, hmiss]
    have hgen : generate_code hashFn builderResp spec_md (.obj fs)
        = (.error .valueError, []) := by
      simp [generate_code, hver]
    rw [hgen]
    refine ⟨?_, ?_, ?_, ?_, ?_⟩
    · constructor
      · intro h
        exact absurd rfl h
      · rintro ⟨afs2, ha, -⟩
        exact nomatch ha
    · intro h
      exact absurd rfl h
    · intro _
      rfl
    · intro _
      rfl
    · intro afs2 ha _
      exact nomatch ha
  | some v =>
    by_cases hobj : ∃ afs, v = JVal.obj afs
    · obtain ⟨afs, rfl⟩ := hobj
      cases h2 : olookup afs "spec_hash" with
      | none =>
        have hver : verify_spec_hash (hashFn spec_md) (.obj fs) = .ok false := by
          rw [verify_spec_hash_obj, h1]
          simp [h2, hmiss]
        have hgen : generate_code hashFn builderResp spec_md (.obj fs)
            = (.error .valueError, []) := by
          simp [generate_code, hver]
        rw [hgen]
        refine ⟨?_, ?_, ?_, ?_, ?_⟩
        · constructor
          · intro h
            exact absurd rfl h
          · rintro ⟨afs2, ha, hb⟩
            injection ha with ha
            injection ha with ha
            subst ha
            rw [h2] at hb
            exact nomatch hb
        · intro h
          exact absurd rfl h
        · intro _
          rfl
        · intro hn
          exact nomatch hn
        · intro afs2 _ _
          rfl
      | some w =>
        have hver : verify_spec_hash (hashFn spec_md) (.obj fs)
            = .ok (isStrEq w (hashFn spec_md)) := by
          rw [verify_spec_hash_obj, h1]
          simp [h2]
        by_cases hw : w = JVal.str (hashFn spec_md)
        · subst hw
          have htrue : isStrEq (.str (hashFn spec_md)) (hashFn spec_md) = true := by
            simp [isStrEq]
          rw [htrue] at hver
          have hgen : generate_code hashFn builderResp spec_md (.obj fs)
              = (.ok builderResp, [(spec_md, .obj fs)]) := by
            simp [generate_code, hver]
          rw [hgen]
          refine ⟨?_, ?_, ?_, ?_, ?_⟩
          · constructor
            · intro _
              exact ⟨afs, rfl, h2⟩
            · intro _ h
              exact nomatch h
          · intro _
            rfl
          · intro h3
            exact nomatch h3
          · intro hn
            exact nomatch hn
          · intro afs2 ha hb
            injection ha with ha
            injection ha with ha
            subst ha
            rw [h2] at hb
            exact nomatch hb
        · have hfalse : isStrEq w (hashFn spec_md) = false := by
            cases w <;> simp only [isStrEq] <;>
              first
              | rfl
              | exact decide_eq_false fun hh => hw (by rw [hh])
          rw [hfalse] at hver
          have hgen : generate_code hashFn builderResp spec_md (.obj fs)
              = (.error .valueError, []) := by
            simp [generate_code, hver]
          rw [hgen]
          refine ⟨?_, ?_, ?_, ?_, ?_⟩
          · constructor
            · intro h
              exact absurd rfl h
            · rintro ⟨afs2, ha, hb⟩
              injection ha with ha
              injection ha with ha
              subst ha
              rw [h2] at hb
              injection hb with hb
              exact absurd (hw hb) not_false
          · intro h
            exact absurd rfl h
          · intro _
            rfl
          · intro hn
            exact nomatch hn
          · intro afs2 _ _
            rfl
    · have hver : verify_spec_hash (hashFn spec_md) (.obj fs)
          = .error .attributeError := by
        rw [verify_spec_hash_obj, h1]
        cases v
        · rfl
        · rfl
        · rfl
        · rfl
        · rfl
        · exact absurd ⟨_, rfl⟩ hobj
      have hgen : generate_code hashFn builderResp spec_md (.obj fs)
          = (.error .attributeError, []) := by
        simp [generate_code, hver]
      rw [hgen]
      refine ⟨?_, ?_, ?_, ?_, ?_⟩
      · constructor
        · intro h
          exact absurd rfl h
        · rintro ⟨afs2, ha, -⟩
          injection ha with ha
          exact absurd (hobj ⟨afs2, ha⟩) not_false
      · intro h
        exact absurd rfl h
      · intro _
        rfl
      · intro hn
        exact nomatch hn
      · intro afs2 ha _
        injection ha with ha
        exact absurd ⟨afs2, ha⟩ hobj
/-- Witness for C4: with a concrete hash function and ledger the
builder is invoked exactly on a hash match. -/
theorem claim_C4_spec_hash_gate_witness :
    ("H-spec" : String) ≠ "" ∧
    ((generate_code sampleHashFn "code" "spec"
        (.obj [("active_spec", .obj [("spec_hash", .str "H-spec")])])).2 ≠ [] ↔
      (∃ afs, olookup [("active_spec", .obj [("spec_hash", .str "H-spec")])]
          "active_spec" = some (.obj afs) ∧
        olookup afs "spec_hash" = some (.str (sampleHashFn "spec")))) := by
  have h := claim_C4_spec_hash_gate sampleHashFn "code" "spec"
    [("active_spec", .obj [("spec_hash", .str "H-spec")])] (by decide)
  exact ⟨by decide, h.1⟩

/-- Witness for C2: 19 valid of 20 factual claims at threshold 0.95
passes the gate (the comparison is non-strict). -/
theorem claim_C2_gate_pass_iff_witness :
    calculate_ccc_metric sampleLedger1920 (mkRat 95 100)
      = .ok ⟨19, 20, mkRat 19 20, mkRat 95 100⟩ ∧
    cccGatePasses ⟨19, 20, mkRat 19 20, mkRat 95 100⟩ = true ∧
    (cccGatePasses ⟨19, 20, mkRat 19 20, mkRat 95 100⟩ = true ↔
      mkRat 95 100 ≤ mkRat 19 20) := by
  have h : calculate_ccc_metric sampleLedger1920 (mkRat 95 100)
      = .ok ⟨19, 20, mkRat 19 20, mkRat 95 100⟩ := rfl
  have hc := claim_C2_gate_pass_iff sampleLedger1920 (mkRat 95 100)
    ⟨19, 20, mkRat 19 20, mkRat 95 100⟩ h
  exact ⟨h, rfl, hc.2.1⟩

/-- One-step unfolding of the revision loop. -/
theorem runLoop_succ (env : Env) (thr : ℚ) (total rem : ℕ) (d : JVal)
    (c : Counts) :
    runLoop env thr total (rem + 1) d c =
      match runCycle env thr (total - (rem + 1)) (rem == 0) d with
      | .errPre e => (.error e, c)
      | .errPost e => (.error e, { c with audit := c.audit + 1 })
      | .errRevised e =>
        (.error e, { c with audit := c.audit + 1, draft := c.draft + 1,
                            revise := c.revise + 1 })
      | .passed rpt => (.ok (d, rpt), { c with audit := c.audit + 1 })
      | .exhausted rpt => (.ok (d, rpt), { c with audit := c.audit + 1 })
      | .revised newDraft _rpt =>
        runLoop env thr total rem newDraft
          { c with audit := c.audit + 1, draft := c.draft + 1,
                   revise := c.revise + 1 } := rfl

theorem runCycle_last_no_revision (env : Env) (thr : ℚ) (cycle : ℕ) (d : JVal) :
    (∀ nd rpt, runCycle env thr cycle true d ≠ .revised nd rpt) ∧
    (∀ e, runCycle env thr cycle true d ≠ .errRevised e) := by
  constructor
  · intro nd rpt h
    unfold runCycle at h
    cases hrep : parse_audit_report (env.criticResps cycle) <;>
      rw [hrep] at h <;>
      (repeat' split at h) <;> simp_all [setItem]
  · intro e h
    unfold runCycle at h
    cases hrep : parse_audit_report (env.criticResps cycle) <;>
      rw [hrep] at h <;>
      (repeat' split at h) <;> simp_all [setItem]

theorem runLoop_counts (env : Env) (thr : ℚ) (total : ℕ) :
    ∀ (rem : ℕ) (d : JVal) (c : Counts),
      (runLoop env thr total rem d c).2.draft ≤ c.draft + (rem - 1) ∧
      (runLoop env thr total rem d c).2.audit ≤ c.audit + rem ∧
      (runLoop env thr total rem d c).2.revise ≤ c.revise + (rem - 1) ∧
      (runLoop env thr total rem d c).2.normalize = c.normalize ∧
      (runLoop env thr total rem d c).2.rank = c.rank := by
  intro rem
  induction rem with
  | zero =>
    intro d c
    simp [runLoop]
  | succ n ih =>
    intro d c
    rcases n with _ | k
    · have haux := runCycle_last_no_revision env thr (total - 1) d
      rw [runLoop_succ]
      split
      · simp
      · simp
      · next e heq => exact absurd heq (haux.2 e)
      · simp
      · simp
      · next nd rpt heq => exact absurd heq (haux.1 nd rpt)
    · rw [runLoop_succ]
      split
      · simp
      · simp
      · simp
      · simp
      · simp
      · next nd rpt heq =>
        obtain ⟨ih1, ih2, ih3, ih4, ih5⟩ := ih nd
          { c with audit := c.audit + 1, draft := c.draft + 1,
                   revise := c.revise + 1 }
        dsimp only at ih1 ih2 ih3 ih4 ih5
        refine ⟨?_, ?_, ?_, ?_, ?_⟩ <;> omega

theorem runLoop_one_exact (env : Env) (thr : ℚ) (total : ℕ) (d : JVal)
    (c : Counts) :
    (runLoop env thr total 1 d c).2.draft = c.draft ∧
    (runLoop env thr total 1 d c).2.revise = c.revise ∧
    (runLoop env thr total 1 d c).2.audit ≤ c.audit + 1 ∧
    ((runLoop env thr total 1 d c).1.isOk = true →
      (runLoop env thr total 1 d c).2.audit = c.audit + 1) := by
  have haux := runCycle_last_no_revision env thr (total - 1) d
  rw [show (1 : ℕ) = 0 + 1 from rfl, runLoop_succ]
  split
  · simp [Except.isOk, Except.toBool]
  · simp [Except.isOk, Except.toBool]
  · next e heq => exact absurd heq (haux.2 e)
  · simp [Except.isOk, Except.toBool]
  · simp [Except.isOk, Except.toBool]
  · next nd rpt heq => exact absurd heq (haux.1 nd rpt)


/-- Counterexample to C3 as stated: with M = 1, a drafter response
that is syntactically valid JSON lacking claim_ledger raises KeyError
while the audit call arguments are serialized, before the critic is
invoked, so the run performs one Draft invocation but zero Audit
invocations, not exactly one. -/
theorem claim_C3_counterexample :
    (process_haystack envEmptyObjDraft 1 (mkRat 95 100)).2.draft = 1 ∧
    (process_haystack envEmptyObjDraft 1 (mkRat 95 100)).2.audit = 0 ∧
    (process_haystack envEmptyObjDraft 1 (mkRat 95 100)).1
      = .error .keyError :=
  ⟨rfl, rfl, rfl⟩

/-- Claim C3 amended: for every positive max_revision_cycles value M,
one process_haystack run performs at most M Draft-stage invocations
in total (the initial draft plus at most M-1 revisions); with M = 1
the run performs exactly one Draft invocation, never builds a
revision context, performs at most one Audit invocation, and performs
exactly one Audit invocation whenever it returns normally (a run that
raises while serializing the audit call arguments performs none). -/
theorem claim_C3_revision_budget (env : Env) (M : ℤ) (thr : ℚ) (hM : 1 ≤ M) :
    (process_haystack env M thr).2.draft ≤ M.toNat ∧
    (process_haystack env M thr).2.audit ≤ M.toNat ∧
    (M = 1 →
      (process_haystack env M thr).2.draft = 1 ∧
      (process_haystack env M thr).2.revise = 0 ∧
      (process_haystack env M thr).2.audit ≤ 1 ∧
      ((process_haystack env M thr).1.isOk = true →
        (process_haystack env M thr).2.audit = 1)) := by
  have htot : ¬ (M.toNat = 0) := by omega
  have hcounts : (process_haystack env M thr).2 =
      (runLoop env thr M.toNat M.toNat (parse_draft (env.draftResps 0))
        ⟨1, 1, 1, 0, 0⟩).2 := by
    simp only [process_haystack, if_neg htot]
    cases hres : runLoop env thr M.toNat M.toNat
        (parse_draft (env.draftResps 0)) ⟨1, 1, 1, 0, 0⟩ with
    | mk r c =>
      cases r with
      | error e => rfl
      | ok p =>
        obtain ⟨dd, rpt⟩ := p
        dsimp only
        cases getItem rpt "audit_status" <;> rfl
  have hok : (process_haystack env M thr).1.isOk = true →
      (runLoop env thr M.toNat M.toNat (parse_draft (env.draftResps 0))
        ⟨1, 1, 1, 0, 0⟩).1.isOk = true := by
    simp only [process_haystack, if_neg htot]
    cases hres : runLoop env thr M.toNat M.toNat
        (parse_draft (env.draftResps 0)) ⟨1, 1, 1, 0, 0⟩ with
    | mk r c =>
      cases r with
      | error e =>
        intro h
        exact absurd h (by simp [Except.isOk, Except.toBool])
      | ok p =>
        intro _
        rfl
  obtain ⟨h1, h2, h3, h4, h5⟩ := runLoop_counts env thr M.toNat M.toNat
    (parse_draft (env.draftResps 0)) ⟨1, 1, 1, 0, 0⟩
  dsimp only at h1 h2 h3
  refine ⟨?_, ?_, ?_⟩
  · rw [hcounts]
    omega
  · rw [hcounts]
    omega
  · intro hM1
    subst hM1
    have hone := runLoop_one_exact env thr (Int.toNat 1)
      (parse_draft (env.draftResps 0)) ⟨1, 1, 1, 0, 0⟩
    refine ⟨?_, ?_, ?_, ?_⟩
    · rw [hcounts]
      exact hone.1
    · rw [hcounts]
      exact hone.2.1
    · rw [hcounts]
      exact hone.2.2.1
    · intro hisok
      rw [hcounts]
      exact hone.2.2.2 (hok hisok)

/-- Witness for C3 at a concrete environment with M = 1. -/
theorem claim_C3_revision_budget_witness :
    (1 : ℤ) ≤ 1 ∧
    (process_haystack envAllMalformed 1 (mkRat 95 100)).2.draft ≤ (1 : ℤ).toNat ∧
    ((1 : ℤ) = 1 →
      (process_haystack envAllMalformed 1 (mkRat 95 100)).2.draft = 1 ∧
      (process_haystack envAllMalformed 1 (mkRat 95 100)).2.revise = 0 ∧
      (process_haystack envAllMalformed 1 (mkRat 95 100)).2.audit ≤ 1 ∧
      ((process_haystack envAllMalformed 1 (mkRat 95 100)).1.isOk = true →
        (process_haystack envAllMalformed 1 (mkRat 95 100)).2.audit = 1)) := by
  have h := claim_C3_revision_budget envAllMalformed 1 (mkRat 95 100) (by decide)
  exact ⟨by decide, h.1, h.2.2⟩

theorem runCycle_errPre_ledger (env : Env) (thr : ℚ) (cycle : ℕ) (last : Bool)
    (d : JVal) (e : PyErr) (hcl : getItem d "claim_ledger" = .error e) :
    runCycle env thr cycle last d = .errPre e := by
  unfold runCycle
  simp only [hcl]

theorem runCycle_errPre_sm (env : Env) (thr : ℚ) (cycle : ℕ) (last : Bool)
    (d L : JVal) (e : PyErr) (hcl : getItem d "claim_ledger" = .ok L)
    (hsm : getItem d "sentence_map" = .error e) :
    runCycle env thr cycle last d = .errPre e := by
  unfold runCycle
  simp only [hcl, hsm]

theorem runCycle_errPost_metric (env : Env) (thr : ℚ) (cycle : ℕ) (last : Bool)
    (d L sm : JVal) (e : PyErr) (hcl : getItem d "claim_ledger" = .ok L)
    (hsm : getItem d "sentence_map" = .ok sm)
    (hm : calculate_ccc_metric L thr = .error e) :
    runCycle env thr cycle last d = .errPost e := by
  unfold runCycle
  simp only [hcl, hsm, hm]

theorem runCycle_errPost_report (env : Env) (thr : ℚ) (cycle : ℕ) (last : Bool)
    (d L sm v : JVal) (m : CccMetric) (hcl : getItem d "claim_ledger" = .ok L)
    (hsm : getItem d "sentence_map" = .ok sm)
    (hm : calculate_ccc_metric L thr = .ok m)
    (hrep : parse_audit_report (env.criticResps cycle) = v)
    (hnob : ∀ fs, v ≠ JVal.obj fs) :
    runCycle env thr cycle last d = .errPost .typeError := by
  unfold runCycle
  simp only [hcl, hsm, hm, hrep]
  cases v with
  | obj fs => exact absurd rfl (hnob fs)
  | null => simp [setItem]
  | bool b => simp [setItem]
  | num q => simp [setItem]
  | str s => simp [setItem]
  | arr xs => simp [setItem]

theorem runCycle_passed_eq (env : Env) (thr : ℚ) (cycle : ℕ) (last : Bool)
    (d L sm : JVal) (m : CccMetric) (fs : List (String × JVal))
    (hcl : getItem d "claim_ledger" = .ok L)
    (hsm : getItem d "sentence_map" = .ok sm)
    (hm : calculate_ccc_metric L thr = .ok m)
    (hg : cccGatePasses m = true)
    (hrep : parse_audit_report (env.criticResps cycle) = .obj fs) :
    runCycle env thr cycle last d
      = .passed (.obj (oset fs "audit_status" (.str "PASS"))) := by
  unfold runCycle
  simp only [hcl, hsm, hm, hrep, hg, setItem, if_true]

theorem runCycle_exhausted_eq (env : Env) (thr : ℚ) (cycle : ℕ) (last : Bool)
    (d L sm : JVal) (m : CccMetric) (fs : List (String × JVal))
    (hcl : getItem d "claim_ledger" = .ok L)
    (hsm : getItem d "sentence_map" = .ok sm)
    (hm : calculate_ccc_metric L thr = .ok m)
    (hg : cccGatePasses m = false)
    (hlast : last = true)
    (hrep : parse_audit_report (env.criticResps cycle) = .obj fs) :
    runCycle env thr cycle last d
      = .exhausted (.obj (oset (oset fs "audit_status" (.str "FAIL"))
          "ccc_metric" (cccToJVal m))) := by
  unfold runCycle
  simp only [hcl, hsm, hm, hrep, hg, hlast, setItem, if_true,
    Bool.false_eq_true, if_false]

theorem runCycle_revised_eq (env : Env) (thr : ℚ) (cycle : ℕ) (last : Bool)
    (d L sm : JVal) (m : CccMetric) (fs lfs : List (String × JVal))
    (hcl : getItem d "claim_ledger" = .ok L)
    (hsm : getItem d "sentence_map" = .ok sm)
    (hm : calculate_ccc_metric L thr = .ok m)
    (hg : cccGatePasses m = false)
    (hlast : last = false)
    (hrep : parse_audit_report (env.criticResps cycle) = .obj fs)
    (hlir : (olookup fs "logic_inversion_results").getD (.obj [])
      = .obj lfs) :
    runCycle env thr cycle last d
      = .revised (parse_draft (env.draftResps (cycle + 1)))
          (.obj (oset (oset fs "audit_status" (.str "FAIL"))
            "ccc_metric" (cccToJVal m))) := by
  have hne : olookup (oset fs "audit_status" (.str "FAIL"))
      "logic_inversion_results" = olookup fs "logic_inversion_results" :=
    olookup_oset_ne _ _ _ _ (by decide)
  unfold runCycle
  simp only [hcl, hsm, hm, hrep, hg, hlast, setItem, dictGetD, hne, hlir,
    Bool.false_eq_true, if_false]

theorem runCycle_errPost_lir (env : Env) (thr : ℚ) (cycle : ℕ) (last : Bool)
    (d L sm lir : JVal) (m : CccMetric) (fs : List (String × JVal))
    (hcl : getItem d "claim_ledger" = .ok L)
    (hsm : getItem d "sentence_map" = .ok sm)
    (hm : calculate_ccc_metric L thr = .ok m)
    (hg : cccGatePasses m = false)
    (hlast : last = false)
    (hrep : parse_audit_report (env.criticResps cycle) = .obj fs)
    (hlir : (olookup fs "logic_inversion_results").getD (.obj []) = lir)
    (hnob : ∀ lfs, lir ≠ JVal.obj lfs) :
    runCycle env thr cycle last d = .errPost .attributeError := by
  have hne : olookup (oset fs "audit_status" (.str "FAIL"))
      "logic_inversion_results" = olookup fs "logic_inversion_results" :=
    olookup_oset_ne _ _ _ _ (by decide)
  unfold runCycle
  simp only [hcl, hsm, hm, hrep, hg, hlast, setItem, dictGetD, hne, hlir,
    Bool.false_eq_true, if_false]


theorem runLoop_ok_status (env : Env) (thr : ℚ) (total : ℕ) :
    ∀ (rem : ℕ) (d : JVal) (c : Counts) (d2 rpt : JVal) (c2 : Counts),
    runLoop env thr total rem d c = (.ok (d2, rpt), c2) →
    ∃ fs s, rpt = .obj fs ∧ olookup fs "audit_status" = some (.str s) ∧
      (s = "PASS" ∨ s = "FAIL") := by
  intro rem
  induction rem with
  | zero =>
    intro d c d2 rpt c2 h
    simp [runLoop] at h
  | succ n ih =>
    intro d c d2 rpt c2 h
    rw [runLoop_succ] at h
    cases hcl : getItem d "claim_ledger" with
    | error e =>
      rw [runCycle_errPre_ledger env thr _ _ d e hcl] at h
      simp at h
    | ok L =>
      cases hsm : getItem d "sentence_map" with
      | error e =>
        rw [runCycle_errPre_sm env thr _ _ d L e hcl hsm] at h
        simp at h
      | ok sm =>
        cases hm : calculate_ccc_metric L thr with
        | error e =>
          rw [runCycle_errPost_metric env thr _ _ d L sm e hcl hsm hm] at h
          simp at h
        | ok m =>
          cases hrep : parse_audit_report (env.criticResps (total - (n + 1))) with
          | obj fs =>
            cases hg : cccGatePasses m with
            | true =>
              rw [runCycle_passed_eq env thr _ _ d L sm m fs hcl hsm hm hg hrep] at h
              simp only [Prod.mk.injEq, Except.ok.injEq] at h
              obtain ⟨⟨hd2, hrpt⟩, hc2⟩ := h
              exact ⟨_, "PASS", hrpt.symm, olookup_oset_self _ _ _, Or.inl rfl⟩
            | false =>
              rcases n with _ | k
              · rw [runCycle_exhausted_eq env thr _ _ d L sm m fs hcl hsm hm hg (show (0 == 0) = true from rfl) hrep] at h
                simp only [Prod.mk.injEq, Except.ok.injEq] at h
                obtain ⟨⟨hd2, hrpt⟩, hc2⟩ := h
                refine ⟨_, "FAIL", hrpt.symm, ?_, Or.inr rfl⟩
                rw [olookup_oset_ne _ _ _ _ (by decide), olookup_oset_self]
              · cases hlir : (olookup fs "logic_inversion_results").getD (.obj []) with
                | obj lfs =>
                  rw [runCycle_revised_eq env thr _ _ d L sm m fs lfs hcl hsm hm hg (show (k + 1 == 0) = false from rfl) hrep hlir] at h
                  exact ih _ _ _ _ _ h
                | null =>
                  rw [runCycle_errPost_lir env thr _ _ d L sm _ m fs hcl hsm hm hg (show (k + 1 == 0) = false from rfl) hrep hlir
                    (fun lfs hh => nomatch hh)] at h
                  simp at h
                | bool b =>
                  rw [runCycle_errPost_lir env thr _ _ d L sm _ m fs hcl hsm hm hg (show (k + 1 == 0) = false from rfl) hrep hlir
                    (fun lfs hh => nomatch hh)] at h
                  simp at h
                | num q =>
                  rw [runCycle_errPost_lir env thr _ _ d L sm _ m fs hcl hsm hm hg (show (k + 1 == 0) = false from rfl) hrep hlir
                    (fun lfs hh => nomatch hh)] at h
                  simp at h
                | str s =>
                  rw [runCycle_errPost_lir env thr _ _ d L sm _ m fs hcl hsm hm hg (show (k + 1 == 0) = false from rfl) hrep hlir
                    (fun lfs hh => nomatch hh)] at h
                  simp at h
                | arr xs =>
                  rw [runCycle_errPost_lir env thr _ _ d L sm _ m fs hcl hsm hm hg (show (k + 1 == 0) = false from rfl) hrep hlir
                    (fun lfs hh => nomatch hh)] at h
                  simp at h
          | null =>
            rw [runCycle_errPost_report env thr _ _ d L sm _ m hcl hsm hm hrep
              (fun fs hh => nomatch hh)] at h
            simp at h
          | bool b =>
            rw [runCycle_errPost_report env thr _ _ d L sm _ m hcl hsm hm hrep
              (fun fs hh => nomatch hh)] at h
            simp at h
          | num q =>
            rw [runCycle_errPost_report env thr _ _ d L sm _ m hcl hsm hm hrep
              (fun fs hh => nomatch hh)] at h
            simp at h
          | str s =>
            rw [runCycle_errPost_report env thr _ _ d L sm _ m hcl hsm hm hrep
              (fun fs hh => nomatch hh)] at h
            simp at h
          | arr xs =>
            rw [runCycle_errPost_report env thr _ _ d L sm _ m hcl hsm hm hrep
              (fun fs hh => nomatch hh)] at h
            simp at h

/-- Claim C10: for every process_haystack run with
max_revision_cycles at least 1 that returns a bundle, the status
field of the bundle equals the audit_status field of the returned
audit report, and that value is exactly the string PASS or FAIL. -/
theorem claim_C10_status_pass_or_fail (env : Env) (M : ℤ) (thr : ℚ)
    (b : Bundle) (c : Counts) (hM : 1 ≤ M)
    (h : process_haystack env M thr = (.ok b, c)) :
    ∃ s, b.status = .str s ∧ (s = "PASS" ∨ s = "FAIL") ∧
      getItem b.audit_report "audit_status" = .ok (.str s) := by
  have htot : ¬ (M.toNat = 0) := by omega
  simp only [process_haystack, if_neg htot] at h
  cases hres : runLoop env thr M.toNat M.toNat
      (parse_draft (env.draftResps 0)) ⟨1, 1, 1, 0, 0⟩ with
  | mk r c' =>
    rw [hres] at h
    cases r with
    | error e => simp at h
    | ok p =>
      obtain ⟨dd, rpt⟩ := p
      obtain ⟨fs, s, hfs, hlook, hps⟩ :=
        runLoop_ok_status env thr M.toNat M.toNat
          (parse_draft (env.draftResps 0)) ⟨1, 1, 1, 0, 0⟩ dd rpt c' hres
      subst hfs
      have hget : getItem (JVal.obj fs) "audit_status" = .ok (.str s) := by
        simp [getItem, hlook]
      simp only [hget, Prod.mk.injEq, Except.ok.injEq] at h
      obtain ⟨hb, hc⟩ := h
      exact ⟨s, by rw [← hb], hps, by rw [← hb]; exact hget⟩

/-- Witness for C10 on the all-fallback environment with M = 1. -/
theorem claim_C10_status_pass_or_fail_witness :
    process_haystack envAllMalformed 1 (mkRat 95 100)
      = (.ok sampleFailBundle, ⟨1, 1, 1, 1, 0⟩) ∧
    ∃ s, sampleFailBundle.status = .str s ∧ (s = "PASS" ∨ s = "FAIL") ∧
      getItem sampleFailBundle.audit_report "audit_status" = .ok (.str s) := by
  have h : process_haystack envAllMalformed 1 (mkRat 95 100)
      = (.ok sampleFailBundle, ⟨1, 1, 1, 1, 0⟩) := rfl
  exact ⟨h, claim_C10_status_pass_or_fail envAllMalformed 1 (mkRat 95 100)
    sampleFailBundle ⟨1, 1, 1, 1, 0⟩ (by decide) h⟩

theorem runLoop_all_fail (env : Env) (thr : ℚ) (total : ℕ)
    (hconf : ∀ k, k < total → FailingCycle env thr k) :
    ∀ (rem : ℕ) (c : Counts), 1 ≤ rem → rem ≤ total →
    ∃ fs2 m2 c2,
      runLoop env thr total rem (parse_draft (env.draftResps (total - rem))) c
        = (.ok (parse_draft (env.draftResps (total - 1)), .obj fs2), c2) ∧
      c2.draft = c.draft + (rem - 1) ∧ c2.audit = c.audit + rem ∧
      c2.revise = c.revise + (rem - 1) ∧
      c2.normalize = c.normalize ∧ c2.rank = c.rank ∧
      olookup fs2 "audit_status" = some (.str "FAIL") ∧
      olookup fs2 "ccc_metric" = some (cccToJVal m2) ∧
      cccGatePasses m2 = false := by
  intro rem
  induction rem with
  | zero =>
    intro c h1 h2
    omega
  | succ n ih =>
    intro c h1 h2
    rcases n with _ | k
    · obtain ⟨L, m, fs, hcl, ⟨sm, hsm⟩, hm, hg, hrep, lfs, hlir⟩ :=
        hconf (total - 1) (by omega)
      rw [runLoop_succ]
      rw [runCycle_exhausted_eq env thr _ _ _ L sm m fs hcl hsm hm hg
        (show (0 == 0) = true from rfl) hrep]
      refine ⟨oset (oset fs "audit_status" (.str "FAIL")) "ccc_metric"
        (cccToJVal m), m, _, rfl, ?_, ?_, ?_, ?_, ?_, ?_, ?_, hg⟩
      · simp
      · simp
      · simp
      · simp
      · simp
      · rw [olookup_oset_ne _ _ _ _ (by decide), olookup_oset_self]
      · rw [olookup_oset_self]
    · obtain ⟨L, m, fs, hcl, ⟨sm, hsm⟩, hm, hg, hrep, lfs, hlir⟩ :=
        hconf (total - (k + 1 + 1)) (by omega)
      rw [runLoop_succ]
      rw [runCycle_revised_eq env thr _ _ _ L sm m fs lfs hcl hsm hm hg
        (show (k + 1 == 0) = false from rfl) hrep hlir]
      have harith : total - (k + 1 + 1) + 1 = total - (k + 1) := by omega
      rw [harith]
      obtain ⟨fs2, m2, c2, hrl, hd, ha, hv, hn, hr, hlook1, hlook2, hg2⟩ :=
        ih { c with audit := c.audit + 1, draft := c.draft + 1,
                    revise := c.revise + 1 } (by omega) (by omega)
      dsimp only at hd ha hv hn hr
      exact ⟨fs2, m2, c2, hrl, by omega, by omega, by omega, by omega,
        by omega, hlook1, hlook2, hg2⟩

/-- Counterexample to C6 as stated: a final-cycle critic response
that is syntactically valid JSON of non-dict structure (an empty
array) leaves the run with a failing gate on the final cycle - the
metric over the fallback draft ledger is 0 of 0 and fails the 0.95
threshold - yet process_haystack raises TypeError when the controller
stamps the FAIL status on the report, instead of returning a bundle
with status FAIL. -/
theorem claim_C6_counterexample :
    calculate_ccc_metric (.obj [("claims", .arr [])]) (mkRat 95 100)
      = .ok ⟨0, 0, 0, mkRat 95 100⟩ ∧
    cccGatePasses ⟨0, 0, 0, mkRat 95 100⟩ = false ∧
    parse_audit_report (envBadFinalReport.criticResps 0) = .arr [] ∧
    (process_haystack envBadFinalReport 1 (mkRat 95 100)).2.audit = 1 ∧
    (process_haystack envBadFinalReport 1 (mkRat 95 100)).1
      = .error .typeError :=
  ⟨rfl, rfl, rfl, rfl, rfl⟩

/-- Claim C6 amended: for every run in which the Coverage Gate fails
on every cycle and each cycle is structurally well-formed (the draft
has the fields the controller reads, the metric computes, the critic
response parses to a dict, and its logic_inversion_results entry
defaults to or is a dict), process_haystack terminates without
invoking any further Draft stage (exactly M Draft and M Audit
invocations in total) and returns normally, with a complete artifact
bundle: evidence, draft, audit report carrying the failing coverage
metric, and overall status FAIL. -/
theorem claim_C6_exhaustion_returns_fail_bundle (env : Env) (M : ℤ)
    (thr : ℚ) (hM : 1 ≤ M)
    (hconf : ∀ k, k < M.toNat → FailingCycle env thr k) :
    ∃ b c, process_haystack env M thr = (.ok b, c) ∧
      b.status = .str "FAIL" ∧
      getItem b.audit_report "audit_status" = .ok (.str "FAIL") ∧
      (∃ m2, getItem b.audit_report "ccc_metric" = .ok (cccToJVal m2) ∧
        cccGatePasses m2 = false) ∧
      b.evidence = parse_evidence env.gardenerResp ∧
      b.draft = parse_draft (env.draftResps (M.toNat - 1)) ∧
      c.draft = M.toNat ∧ c.audit = M.toNat ∧ c.revise = M.toNat - 1 ∧
      c.normalize = 1 ∧ c.rank = 1 := by
  have htot : ¬ (M.toNat = 0) := by omega
  obtain ⟨fs2, m2, c2, hrl, hd, ha, hv, hn, hr, hlook1, hlook2, hg2⟩ :=
    runLoop_all_fail env thr M.toNat hconf M.toNat ⟨1, 1, 1, 0, 0⟩
      (by omega) (le_refl _)
  rw [Nat.sub_self] at hrl
  dsimp only at hd ha hv hn hr
  have hget1 : getItem (JVal.obj fs2) "audit_status" = .ok (.str "FAIL") := by
    simp [getItem, hlook1]
  have hget2 : getItem (JVal.obj fs2) "ccc_metric" = .ok (cccToJVal m2) := by
    simp [getItem, hlook2]
  refine ⟨⟨parse_evidence env.gardenerResp,
    parse_draft (env.draftResps (M.toNat - 1)), .obj fs2, .str "FAIL"⟩, c2,
    ?_, rfl, hget1, ⟨m2, hget2, hg2⟩, rfl, rfl, by omega, by omega, by omega,
    by omega, by omega⟩
  simp only [process_haystack, if_neg htot, hrl, hget1]

/-- Witness for C6: two failing cycles on the all-fallback
environment. -/
theorem claim_C6_exhaustion_returns_fail_bundle_witness :
    ∃ b c, process_haystack envAllMalformed 2 (mkRat 95 100) = (.ok b, c) ∧
      b.status = .str "FAIL" ∧
      getItem b.audit_report "audit_status" = .ok (.str "FAIL") ∧
      (∃ m2, getItem b.audit_report "ccc_metric" = .ok (cccToJVal m2) ∧
        cccGatePasses m2 = false) ∧
      b.evidence = parse_evidence envAllMalformed.gardenerResp ∧
      b.draft = parse_draft (envAllMalformed.draftResps ((2 : ℤ).toNat - 1)) ∧
      c.draft = (2 : ℤ).toNat ∧ c.audit = (2 : ℤ).toNat ∧
      c.revise = (2 : ℤ).toNat - 1 ∧ c.normalize = 1 ∧ c.rank = 1 := by
  refine claim_C6_exhaustion_returns_fail_bundle envAllMalformed 2
    (mkRat 95 100) (by decide) ?_
  intro k hk
  exact ⟨.obj [("claims", .arr [])], ⟨0, 0, 0, mkRat 95 100⟩,
    [("audit_status", .str "FAIL"),
     ("error", .str "Invalid audit report format")],
    rfl, ⟨.arr [], rfl⟩, rfl, rfl, rfl, [], rfl⟩

theorem runLoop_report_independent (e1 e2 : Env) (thr : ℚ) (total : ℕ)
    (hdr : e1.draftResps = e2.draftResps)
    (hcr : ∀ k, reportsAgree (e1.criticResps k) (e2.criticResps k)) :
    ∀ (rem : ℕ) (d : JVal) (c : Counts),
    loopResRel (runLoop e1 thr total rem d c)
      (runLoop e2 thr total rem d c) := by
  intro rem
  induction rem with
  | zero =>
    intro d c
    simp [runLoop, loopResRel]
  | succ n ih =>
    intro d c
    obtain ⟨fs1, fs2, hrep1, hrep2, hagree1, hagree2⟩ := hcr (total - (n + 1))
    rw [runLoop_succ, runLoop_succ]
    cases hcl : getItem d "claim_ledger" with
    | error e =>
      rw [runCycle_errPre_ledger e1 thr _ _ d e hcl,
        runCycle_errPre_ledger e2 thr _ _ d e hcl]
      exact ⟨rfl, rfl⟩
    | ok L =>
      cases hsm : getItem d "sentence_map" with
      | error e =>
        rw [runCycle_errPre_sm e1 thr _ _ d L e hcl hsm,
          runCycle_errPre_sm e2 thr _ _ d L e hcl hsm]
        exact ⟨rfl, rfl⟩
      | ok sm =>
        cases hm : calculate_ccc_metric L thr with
        | error e =>
          rw [runCycle_errPost_metric e1 thr _ _ d L sm e hcl hsm hm,
            runCycle_errPost_metric e2 thr _ _ d L sm e hcl hsm hm]
          exact ⟨rfl, rfl⟩
        | ok m =>
          cases hg : cccGatePasses m with
          | true =>
            rw [runCycle_passed_eq e1 thr _ _ d L sm m fs1 hcl hsm hm hg hrep1,
              runCycle_passed_eq e2 thr _ _ d L sm m fs2 hcl hsm hm hg hrep2]
            refine ⟨rfl, rfl, ?_⟩
            simp [getItem, olookup_oset_self]
          | false =>
            rcases n with _ | k
            · rw [runCycle_exhausted_eq e1 thr _ _ d L sm m fs1 hcl hsm hm hg
                (show (0 == 0) = true from rfl) hrep1,
                runCycle_exhausted_eq e2 thr _ _ d L sm m fs2 hcl hsm hm hg
                (show (0 == 0) = true from rfl) hrep2]
              refine ⟨rfl, rfl, ?_⟩
              have l1 : olookup (oset (oset fs1 "audit_status" (.str "FAIL"))
                  "ccc_metric" (cccToJVal m)) "audit_status"
                  = some (.str "FAIL") := by
                rw [olookup_oset_ne _ _ _ _ (by decide), olookup_oset_self]
              have l2 : olookup (oset (oset fs2 "audit_status" (.str "FAIL"))
                  "ccc_metric" (cccToJVal m)) "audit_status"
                  = some (.str "FAIL") := by
                rw [olookup_oset_ne _ _ _ _ (by decide), olookup_oset_self]
              simp [getItem, l1, l2]
            · cases hlir : (olookup fs1 "logic_inversion_results").getD
                  (.obj []) with
              | obj lfs =>
                have hlir2 : (olookup fs2 "logic_inversion_results").getD
                    (.obj []) = .obj lfs := by
                  rw [← hagree2]
                  exact hlir
                rw [runCycle_revised_eq e1 thr _ _ d L sm m fs1 lfs hcl hsm hm
                  hg (show (k + 1 == 0) = false from rfl) hrep1 hlir,
                  runCycle_revised_eq e2 thr _ _ d L sm m fs2 lfs hcl hsm hm
                  hg (show (k + 1 == 0) = false from rfl) hrep2 hlir2]
                rw [← hdr]
                exact ih _ _
              | null =>
                have hlir2 : (olookup fs2 "logic_inversion_results").getD
                    (.obj []) = .null := by
                  rw [← hagree2]; exact hlir
                rw [runCycle_errPost_lir e1 thr _ _ d L sm _ m fs1 hcl hsm hm
                  hg (show (k + 1 == 0) = false from rfl) hrep1 hlir
                  (fun lfs hh => nomatch hh),
                  runCycle_errPost_lir e2 thr _ _ d L sm _ m fs2 hcl hsm hm
                  hg (show (k + 1 == 0) = false from rfl) hrep2 hlir2
                  (fun lfs hh => nomatch hh)]
                exact ⟨rfl, rfl⟩
              | bool b =>
                have hlir2 : (olookup fs2 "logic_inversion_results").getD
                    (.obj []) = .bool b := by
                  rw [← hagree2]; exact hlir
                rw [runCycle_errPost_lir e1 thr _ _ d L sm _ m fs1 hcl hsm hm
                  hg (show (k + 1 == 0) = false from rfl) hrep1 hlir
                  (fun lfs hh => nomatch hh),
                  runCycle_errPost_lir e2 thr _ _ d L sm _ m fs2 hcl hsm hm
                  hg (show (k + 1 == 0) = false from rfl) hrep2 hlir2
                  (fun lfs hh => nomatch hh)]
                exact ⟨rfl, rfl⟩
              | num q =>
                have hlir2 : (olookup fs2 "logic_inversion_results").getD
                    (.obj []) = .num q := by
                  rw [← hagree2]; exact hlir
                rw [runCycle_errPost_lir e1 thr _ _ d L sm _ m fs1 hcl hsm hm
                  hg (show (k + 1 == 0) = false from rfl) hrep1 hlir
                  (fun lfs hh => nomatch hh),
                  runCycle_errPost_lir e2 thr _ _ d L sm _ m fs2 hcl hsm hm
                  hg (show (k + 1 == 0) = false from rfl) hrep2 hlir2
                  (fun lfs hh => nomatch hh)]
                exact ⟨rfl, rfl⟩
              | str s =>
                have hlir2 : (olookup fs2 "logic_inversion_results").getD
                    (.obj []) = .str s := by
                  rw [← hagree2]; exact hlir
                rw [runCycle_errPost_lir e1 thr _ _ d L sm _ m fs1 hcl hsm hm
                  hg (show (k + 1 == 0) = false from rfl) hrep1 hlir
                  (fun lfs hh => nomatch hh),
                  runCycle_errPost_lir e2 thr _ _ d L sm _ m fs2 hcl hsm hm
                  hg (show (k + 1 == 0) = false from rfl) hrep2 hlir2
                  (fun lfs hh => nomatch hh)]
                exact ⟨rfl, rfl⟩
              | arr xs =>
                have hlir2 : (olookup fs2 "logic_inversion_results").getD
                    (.obj []) = .arr xs := by
                  rw [← hagree2]; exact hlir
                rw [runCycle_errPost_lir e1 thr _ _ d L sm _ m fs1 hcl hsm hm
                  hg (show (k + 1 == 0) = false from rfl) hrep1 hlir
                  (fun lfs hh => nomatch hh),
                  runCycle_errPost_lir e2 thr _ _ d L sm _ m fs2 hcl hsm hm
                  hg (show (k + 1 == 0) = false from rfl) hrep2 hlir2
                  (fun lfs hh => nomatch hh)]
                exact ⟨rfl, rfl⟩

/-- Claim C9: the final status of process_haystack is determined only
by the controller recomputation of the coverage metric from the
draft claim ledger: two runs whose critic responses differ only in
the audit-status and self-reported coverage figures (that is, agree
on everything the controller reads from the report) produce the same
stage-invocation counts, raise the same exception if any, and return
the same overall status. -/
theorem claim_C9_self_report_independence (e1 e2 : Env) (M : ℤ) (thr : ℚ)
    (hev : e1.evidenceResp = e2.evidenceResp)
    (hgd : e1.gardenerResp = e2.gardenerResp)
    (hdr : e1.draftResps = e2.draftResps)
    (hcr : ∀ k, reportsAgree (e1.criticResps k) (e2.criticResps k)) :
    (process_haystack e1 M thr).2 = (process_haystack e2 M thr).2 ∧
    Except.map Bundle.status (process_haystack e1 M thr).1
      = Except.map Bundle.status (process_haystack e2 M thr).1 := by
  by_cases htot : M.toNat = 0
  · simp [process_haystack, htot]
  · have hrel := runLoop_report_independent e1 e2 thr M.toNat hdr hcr M.toNat
      (parse_draft (e1.draftResps 0)) ⟨1, 1, 1, 0, 0⟩
    simp only [process_haystack, if_neg htot, ← hdr]
    cases hres1 : runLoop e1 thr M.toNat M.toNat
        (parse_draft (e1.draftResps 0)) ⟨1, 1, 1, 0, 0⟩ with
    | mk r1 c1 =>
      cases hres2 : runLoop e2 thr M.toNat M.toNat
          (parse_draft (e1.draftResps 0)) ⟨1, 1, 1, 0, 0⟩ with
      | mk r2 c2 =>
        rw [hres1, hres2] at hrel
        cases r1 with
        | error a =>
          cases r2 with
          | error b =>
            obtain ⟨hab, hc⟩ := hrel
            subst hab
            subst hc
            exact ⟨rfl, rfl⟩
          | ok p2 =>
            obtain ⟨p2a, p2b⟩ := p2
            exact absurd hrel (by simp [loopResRel])
        | ok p1 =>
          obtain ⟨d1, rpt1⟩ := p1
          cases r2 with
          | error b => exact absurd hrel (by simp [loopResRel])
          | ok p2 =>
            obtain ⟨d2, rpt2⟩ := p2
            obtain ⟨hd, hc, hst⟩ := hrel
            subst hd
            subst hc
            cases hgi : getItem rpt1 "audit_status" with
            | error e =>
              rw [hgi] at hst
              have hst2 : getItem rpt2 "audit_status" = .error e := hst.symm
              simp only [hgi, hst2]
              exact ⟨by trivial, by trivial⟩
            | ok status =>
              rw [hgi] at hst
              have hst2 : getItem rpt2 "audit_status" = .ok status := hst.symm
              simp only [hgi, hst2]
              exact ⟨by trivial, by trivial⟩

/-- Witness for C9: two environments whose critic self-reports
opposite audit statuses and coverage figures produce identical counts
and the same final status, and the self-reported PASS is overridden
by the controller to FAIL. -/
theorem claim_C9_self_report_independence_witness :
    ((process_haystack envSelfReportPass 1 (mkRat 95 100)).2
        = (process_haystack envSelfReportFail 1 (mkRat 95 100)).2 ∧
      Except.map Bundle.status
          (process_haystack envSelfReportPass 1 (mkRat 95 100)).1
        = Except.map Bundle.status
          (process_haystack envSelfReportFail 1 (mkRat 95 100)).1) ∧
    Except.map Bundle.status
        (process_haystack envSelfReportPass 1 (mkRat 95 100)).1
      = .ok (.str "FAIL") := by
  refine ⟨claim_C9_self_report_independence envSelfReportPass
    envSelfReportFail 1 (mkRat 95 100) rfl rfl rfl ?_, rfl⟩
  intro k
  exact ⟨[("audit_status", .str "PASS"), ("ccc_metric", .num 1),
          ("revision_guidance", .arr []),
          ("logic_inversion_results", .obj [])],
         [("audit_status", .str "FAIL"), ("ccc_metric", .num 0),
          ("revision_guidance", .arr []),
          ("logic_inversion_results", .obj [])],
         rfl, rfl, rfl, rfl⟩

/-- Counterexample to C5 as stated: with the out-of-range coverage
threshold 3/2 a run does not fail fast with a configuration error at
run start: Normalize, Rank, Draft and Audit are all invoked, no error
is raised, and the out-of-range threshold is used directly by the
gate, so even a fully pinpointed draft (ratio 1.0) fails. -/
theorem claim_C5_counterexample :
    (process_haystack envPerfect 1 (mkRat 3 2)).1.isOk = true ∧
    Except.map Bundle.status (process_haystack envPerfect 1 (mkRat 3 2)).1
      = .ok (.str "FAIL") ∧
    (process_haystack envPerfect 1 (mkRat 3 2)).2 = ⟨1, 1, 1, 1, 0⟩ :=
  ⟨rfl, rfl, rfl⟩

/-- Claim C5 amended: the pipeline performs no configuration
validation.  A non-positive max_revision_cycles is not rejected at
run start: Normalize, Rank and the initial Draft are still invoked
and the run only fails afterwards with an UnboundLocalError while
building the result.  An out-of-range threshold is never clamped: the
metric carries exactly the configured threshold into the gate
comparison. -/
theorem claim_C5_no_config_validation (env : Env) (M : ℤ) (thr : ℚ)
    (hM : M ≤ 0) :
    process_haystack env M thr
      = (.error .unboundLocalError, ⟨1, 1, 1, 0, 0⟩) ∧
    (∀ claim_ledger m, calculate_ccc_metric claim_ledger thr = .ok m →
      m.threshold = thr) := by
  constructor
  · have htot : M.toNat = 0 := by omega
    simp [process_haystack, htot]
  · intro L m h
    exact (calculate_ccc_metric_spec L thr m h).1

/-- Witness for the amended C5 at M = 0. -/
theorem claim_C5_no_config_validation_witness :
    (0 : ℤ) ≤ 0 ∧
    process_haystack envAllMalformed 0 (mkRat 3 2)
      = (.error .unboundLocalError, ⟨1, 1, 1, 0, 0⟩) :=
  ⟨by decide,
   (claim_C5_no_config_validation envAllMalformed 0 (mkRat 3 2)
     (by decide)).1⟩

/-- Claim C7 at its failing input: a run whose Coverage Gate passes
on the first audit terminates with status PASS, but the returned
audit report does not carry the recomputed coverage metric: the break
on the gate-pass path skips the attachment performed at the bottom of
the loop, so reading ccc_metric from the returned report raises
KeyError. -/
theorem claim_C7_pass_metric_not_attached :
    Except.map (fun b => (b.status, getItem b.audit_report "ccc_metric"))
      (process_haystack env1920 1 (mkRat 95 100)).1
      = .ok (.str "PASS", .error .keyError) := rfl

/-- Counterexample to C8 as stated: a Draft response that is
syntactically valid JSON with non-conforming structure (an empty
object) is not replaced by the fallback artifact, and the pipeline
then fails with a KeyError when the controller reads claim_ledger. -/
theorem claim_C8_counterexample :
    parse_draft ⟨"x", some (.obj [])⟩ = .obj [] ∧
    (process_haystack envEmptyObjDraft 1 (mkRat 95 100)).1
      = .error .keyError :=
  ⟨rfl, rfl⟩

/-- Claim C8 amended: a response that fails JSON parsing never fails
the pipeline: the Draft wrapper substitutes the fallback artifact
with the raw text as narrative, an empty Sentence Row list and an
empty Claim Ledger, and the Audit wrapper substitutes a report with
status forced to FAIL and an Invalid-audit-report-format note; a
syntactically valid response of non-conforming structure, however, is
returned as parsed without any fallback and may fail the pipeline
downstream. -/
theorem claim_C8_parse_fallbacks (r : Raw) (h : r.parsed = none) :
    parse_draft r = .obj [("narrative", .str r.text),
      ("sentence_map", .arr []),
      ("claim_ledger", .obj [("claims", .arr [])])] ∧
    parse_audit_report r = .obj [("audit_status", .str "FAIL"),
      ("error", .str "Invalid audit report format")] ∧
    parse_evidence r = .arr [.obj [("content", .str r.text)]] ∧
    (∀ v, r.parsed = some v → parse_draft r = v ∧ parse_audit_report r = v) := by
  obtain ⟨t, p⟩ := r
  simp only at h
  subst h
  refine ⟨rfl, rfl, rfl, ?_⟩
  intro v hv
  exact nomatch hv

/-- Witness for the amended C8 on a concrete malformed response. -/
theorem claim_C8_parse_fallbacks_witness :
    (Raw.mk "raw agent text" none).parsed = none ∧
    parse_draft ⟨"raw agent text", none⟩
      = .obj [("narrative", .str "raw agent text"),
        ("sentence_map", .arr []),
        ("claim_ledger", .obj [("claims", .arr [])])] ∧
    parse_audit_report ⟨"raw agent text", none⟩
      = .obj [("audit_status", .str "FAIL"),
        ("error", .str "Invalid audit report format")] :=
  ⟨rfl,
   (claim_C8_parse_fallbacks ⟨"raw agent text", none⟩ rfl).1,
   (claim_C8_parse_fallbacks ⟨"raw agent text", none⟩ rfl).2.1⟩

end Pipeline
